import Mathlib

/-!
Shallow embedding of the pocketbase-go client (src/client.go, src/errors.go,
src/types.go, src/files.go) and proofs about its pagination, error mapping,
multipart encoding, authentication and token handling.

Modelling conventions:
* Go `int` is modelled as `Int`.
* Go `url.Values` (a map from key to value, the code only ever calls `Set`)
  is modelled as the function type `Params := String → Option String`.
* The HTTP server is modelled as an explicit function from the request data
  to the decoded response (or an error), since the client's behaviour depends
  on the response only through the JSON-decoded value.
* Operations that issue requests additionally return the list of requests
  they issued (a ghost trace), so that request-count properties can be
  stated; the Go code's observable return value is the other component.
* `Record` (Go `map[string]any`) is kept abstract: definitions are
  polymorphic in the record type `R`, the error-data type `D`, and the file
  content type `C`.
-/

namespace PocketBase

/-- Query parameters of one request: Go `url.Values`, restricted to the
single-valued usage (`Set`) that the client code performs. -/
def Params : Type := String → Option String

def Params.empty : Params := fun _ => none

def Params.set (p : Params) (k v : String) : Params :=
  fun x => if x = k then some v else p x

theorem Params.set_same (p : Params) (k v : String) : p.set k v k = some v := by
  simp [Params.set]

theorem Params.set_other (p : Params) (k v x : String) (h : x ≠ k) :
    p.set k v x = p x := by
  simp [Params.set, h]

/-- Go struct `ListOptions` (src/types.go). -/
structure ListOptions where
  page : Int
  perPage : Int
  sort : String
  filter : String
  expand : List String
  fields : List String

/-- The initial options value built inside Go `GetAllRecords`:
page 1 and the PocketBase default page size 30. -/
def defaultListOptions : ListOptions :=
  { page := 1, perPage := 30, sort := "", filter := "", expand := [], fields := [] }

/-- Go functional option `WithPage` (src/types.go). -/
def WithPage (page : Int) : ListOptions → ListOptions :=
  fun o => { o with page := page }

/-- Go functional option `WithPerPage` (src/types.go). -/
def WithPerPage (perPage : Int) : ListOptions → ListOptions :=
  fun o => { o with perPage := perPage }

/-- Go functional option `WithSort` (src/types.go). -/
def WithSort (sort : String) : ListOptions → ListOptions :=
  fun o => { o with sort := sort }

/-- Go functional option `WithFilter` (src/types.go). -/
def WithFilter (filter : String) : ListOptions → ListOptions :=
  fun o => { o with filter := filter }

/-- Go functional option `WithListExpand` (src/types.go). -/
def WithListExpand (fields : List String) : ListOptions → ListOptions :=
  fun o => { o with expand := fields }

/-- Go functional option `WithListFields` (src/types.go). -/
def WithListFields (fields : List String) : ListOptions → ListOptions :=
  fun o => { o with fields := fields }

/-- Folding the caller-supplied functional options over the defaults, as the
loop at the top of Go `GetAllRecords` does. -/
def applyListOptions (opts : List (ListOptions → ListOptions)) : ListOptions :=
  opts.foldl (fun o f => f o) defaultListOptions

/-- Go struct `listResp` (src/types.go): the decoded list-page response. -/
structure ListResp (R : Type) where
  page : Int
  perPage : Int
  totalItems : Int
  totalPages : Int
  items : List R

/-- The query parameters built by Go `getRecordPage` (src/client.go lines
274-293): `page` always, `perPage` only when positive, `sort` and `filter`
only when non-empty, `expand` and `fields` comma-joined when non-empty. -/
def getRecordPageParams (options : ListOptions) (page : Int) : Params :=
  let p := Params.set Params.empty "page" (toString page)
  let p := if options.perPage > 0 then p.set "perPage" (toString options.perPage) else p
  let p := if options.sort ≠ "" then p.set "sort" options.sort else p
  let p := if options.filter ≠ "" then p.set "filter" options.filter else p
  let p := if options.expand.length > 0 then p.set "expand" (String.intercalate "," options.expand) else p
  let p := if options.fields.length > 0 then p.set "fields" (String.intercalate "," options.fields) else p
  p

/-- The `for` loop of Go `GetAllRecords` (src/client.go lines 250-265).
`server` maps the requested page number to the decoded response (within one
call all other request data is fixed, so the page determines the request).
`fuel` bounds the number of iterations so the function is total; `none` in
the first component means the fuel ran out before the Go loop would have
stopped. The second component is the trace of issued requests. -/
def getAllLoop {E R : Type} (server : Int → Except E (ListResp R))
    (options : ListOptions) :
    Nat → Int → List R → Option (Except E (List R)) × List Params
  | 0, _, _ => (none, [])
  | fuel + 1, page, acc =>
    let req := getRecordPageParams options page
    match server page with
    | Except.error e => (some (Except.error e), [req])
    | Except.ok resp =>
      if page ≥ resp.totalPages then
        (some (Except.ok (acc ++ resp.items)), [req])
      else
        let rest := getAllLoop server options fuel (page + 1) (acc ++ resp.items)
        (rest.1, req :: rest.2)

/-- Go `GetAllRecords` (src/client.go lines 228-268): fold the options over
the defaults; if an explicit page greater than 1 was requested fetch exactly
that page and return its items, otherwise run the pagination loop from
page 1. -/
def GetAllRecords {E R : Type} (server : Int → Except E (ListResp R))
    (opts : List (ListOptions → ListOptions)) (fuel : Nat) :
    Option (Except E (List R)) × List Params :=
  let options := applyListOptions opts
  if options.page > 1 then
    let req := getRecordPageParams options options.page
    match server options.page with
    | Except.error e => (some (Except.error e), [req])
    | Except.ok resp => (some (Except.ok resp.items), [req])
  else
    getAllLoop server options fuel 1 []

/-- Concatenation of the items of `count` consecutive pages starting at
`start`, in page order. -/
def pagesConcat {R : Type} (f : Int → ListResp R) (start : Int) : Nat → List R
  | 0 => []
  | n + 1 => (f start).items ++ pagesConcat f (start + 1) n

/-- The requests for `count` consecutive pages starting at `start`. -/
def pagesTrace (options : ListOptions) (start : Int) : Nat → List Params
  | 0 => []
  | n + 1 => getRecordPageParams options start :: pagesTrace options (start + 1) n

theorem pagesTrace_length (options : ListOptions) (start : Int) (n : Nat) :
    (pagesTrace options start n).length = n := by
  induction n generalizing start with
  | zero => rfl
  | succ n ih => simp [pagesTrace, ih]

theorem getRecordPageParams_page (options : ListOptions) (page : Int) :
    getRecordPageParams options page "page" = some (toString page) := by
  simp only [getRecordPageParams]
  split_ifs <;>
    simp [Params.set_same, Params.set_other, Params.set, Params.empty]

theorem getRecordPageParams_perPage_pos (options : ListOptions) (page : Int)
    (h : 0 < options.perPage) :
    getRecordPageParams options page "perPage" = some (toString options.perPage) := by
  simp only [getRecordPageParams]
  split_ifs <;>
    simp_all [Params.set_same, Params.set_other, Params.set, Params.empty]

theorem getRecordPageParams_perPage_nonpos (options : ListOptions) (page : Int)
    (h : options.perPage ≤ 0) :
    getRecordPageParams options page "perPage" = none := by
  have h1 : ¬ options.perPage > 0 := by omega
  simp only [getRecordPageParams]
  split_ifs <;>
    simp_all [Params.set_same, Params.set_other, Params.set, Params.empty]

/-- Behaviour of one iteration that hits the break condition: when the
requested page number is at least the reported total-page count, the loop
stops after this single request. -/
theorem getAllLoop_last {E R : Type} (f : Int → ListResp R) (options : ListOptions)
    (fuel : Nat) (page : Int) (acc : List R)
    (h : page ≥ (f page).totalPages) :
    getAllLoop (fun p => (Except.ok (f p) : Except E (ListResp R))) options
        (fuel + 1) page acc
      = (some (Except.ok (acc ++ (f page).items)),
         [getRecordPageParams options page]) := by
  simp [getAllLoop, h]

/-- Main loop invariant: against an error-free server whose every response
reports the same total-page count N, the loop starting at a page in [1, N]
with enough fuel visits exactly the pages from the current one through N,
appending their items in order. -/
theorem getAllLoop_const_totalPages {E R : Type} (f : Int → ListResp R)
    (options : ListOptions) (N : Int)
    (htp : ∀ p, (f p).totalPages = N) :
    ∀ (fuel : Nat) (page : Int) (acc : List R),
      1 ≤ page → page ≤ N → (N - page).toNat < fuel →
      getAllLoop (fun p => (Except.ok (f p) : Except E (ListResp R))) options
          fuel page acc
        = (some (Except.ok (acc ++ pagesConcat f page ((N - page).toNat + 1))),
           pagesTrace options page ((N - page).toNat + 1)) := by
  intro fuel
  induction fuel with
  | zero =>
    intro page acc h1 h2 h3
    omega
  | succ fuel ih =>
    intro page acc h1 h2 h3
    by_cases hlast : page ≥ N
    · have hpN : page = N := le_antisymm h2 hlast
      have hz : (N - page).toNat = 0 := by omega
      rw [getAllLoop_last f options fuel page acc (by rw [htp]; exact hlast), hz]
      simp [pagesConcat, pagesTrace]
    · have hlt : page < N := lt_of_not_ge hlast
      have hcond : ¬ page ≥ (f page).totalPages := by rw [htp]; omega
      have hstep : getAllLoop (fun p => (Except.ok (f p) : Except E (ListResp R)))
          options (fuel + 1) page acc
          = (let rest := getAllLoop
                (fun p => (Except.ok (f p) : Except E (ListResp R))) options fuel
                (page + 1) (acc ++ (f page).items)
             (rest.1, getRecordPageParams options page :: rest.2)) := by
        simp [getAllLoop, hcond]
      rw [hstep]
      rw [ih (page + 1) (acc ++ (f page).items) (by omega) (by omega) (by omega)]
      have hcount : (N - page).toNat = (N - (page + 1)).toNat + 1 := by omega
      rw [hcount]
      simp [pagesConcat, pagesTrace]

/-- When the folded options do not select an explicit page greater than 1,
GetAllRecords runs the pagination loop from page 1. -/
theorem GetAllRecords_eq_loop {E R : Type} (server : Int → Except E (ListResp R))
    (opts : List (ListOptions → ListOptions)) (fuel : Nat)
    (hpage : (applyListOptions opts).page ≤ 1) :
    GetAllRecords server opts fuel
      = getAllLoop server (applyListOptions opts) fuel 1 [] := by
  have h : ¬ (applyListOptions opts).page > 1 := by omega
  simp [GetAllRecords, h]

/-- When the folded options select an explicit page greater than 1 and the
server answers that page, GetAllRecords issues exactly that one request and
returns that page's items. -/
theorem GetAllRecords_single_ok {E R : Type} (server : Int → Except E (ListResp R))
    (opts : List (ListOptions → ListOptions)) (fuel : Nat) (resp : ListResp R)
    (hpage : 1 < (applyListOptions opts).page)
    (hresp : server (applyListOptions opts).page = Except.ok resp) :
    GetAllRecords server opts fuel
      = (some (Except.ok resp.items),
         [getRecordPageParams (applyListOptions opts) (applyListOptions opts).page]) := by
  simp [GetAllRecords, hpage, hresp]

/-- Explicit-page branch when the server answers with an error. -/
theorem GetAllRecords_single_err {E R : Type} (server : Int → Except E (ListResp R))
    (opts : List (ListOptions → ListOptions)) (fuel : Nat) (e : E)
    (hpage : 1 < (applyListOptions opts).page)
    (hresp : server (applyListOptions opts).page = Except.error e) :
    GetAllRecords server opts fuel
      = (some (Except.error e),
         [getRecordPageParams (applyListOptions opts) (applyListOptions opts).page]) := by
  simp [GetAllRecords, hpage, hresp]

/-- Every request the pagination loop issues is a page request built by
getRecordPageParams for some page number. -/
theorem getAllLoop_trace_shape {E R : Type} (server : Int → Except E (ListResp R))
    (options : ListOptions) :
    ∀ (fuel : Nat) (page : Int) (acc : List R) (req : Params),
      req ∈ (getAllLoop server options fuel page acc).2 →
      ∃ p, req = getRecordPageParams options p := by
  intro fuel
  induction fuel with
  | zero =>
    intro page acc req h
    simp [getAllLoop] at h
  | succ fuel ih =>
    intro page acc req h
    simp only [getAllLoop] at h
    cases hsp : server page with
    | error e =>
      rw [hsp] at h
      simp at h
      exact ⟨page, h⟩
    | ok resp =>
      rw [hsp] at h
      by_cases hge : page ≥ resp.totalPages
      · simp [hge] at h
        exact ⟨page, h⟩
      · simp [hge, List.mem_cons] at h
        rcases h with h | h
        · exact ⟨page, h⟩
        · exact ih (page + 1) (acc ++ resp.items) req h

/-- Every request GetAllRecords issues is a page request built by
getRecordPageParams from the folded options. -/
theorem GetAllRecords_trace_shape {E R : Type} (server : Int → Except E (ListResp R))
    (opts : List (ListOptions → ListOptions)) (fuel : Nat) (req : Params)
    (hmem : req ∈ (GetAllRecords server opts fuel).2) :
    ∃ p, req = getRecordPageParams (applyListOptions opts) p := by
  by_cases hpage : 1 < (applyListOptions opts).page
  · cases hsp : server (applyListOptions opts).page with
    | error e =>
      rw [GetAllRecords_single_err server opts fuel e hpage hsp] at hmem
      simp at hmem
      exact ⟨_, hmem⟩
    | ok resp =>
      rw [GetAllRecords_single_ok server opts fuel resp hpage hsp] at hmem
      simp at hmem
      exact ⟨_, hmem⟩
  · rw [GetAllRecords_eq_loop server opts fuel (by omega)] at hmem
    exact getAllLoop_trace_shape server _ fuel 1 [] req hmem

/-- A server whose every response reports two total pages and two items per
page (page p carries items p and p + 10). Used to instantiate theorems. -/
def twoPages : Int → ListResp Nat :=
  fun p => { page := p, perPage := 30, totalItems := 4, totalPages := 2,
             items := [p.toNat, p.toNat + 10] }

/-- A server whose every response reports zero total pages and no items, as
a PocketBase server does for an empty collection. -/
def emptyPages : Int → ListResp Nat :=
  fun p => { page := p, perPage := 30, totalItems := 0, totalPages := 0, items := [] }

/-- An error-free server over emptyPages. -/
def emptyListServer : Int → Except Unit (ListResp Nat) :=
  fun p => Except.ok (emptyPages p)

/-- A server whose every response reports five total pages, with page p
carrying the single item p. -/
def fivePageServer : Int → Except Unit (ListResp Nat) :=
  fun p => Except.ok { page := p, perPage := 30, totalItems := 5, totalPages := 5,
                       items := [p.toNat] }

/-- C1 counterexample: a server that reports 0 total pages (an empty
collection) still receives one list request from GetAllRecords, whereas the
claim as stated predicts exactly N = 0 requests. -/
theorem getAllRecords_zero_totalPages_counterexample :
    emptyListServer 1
        = Except.ok { page := 1, perPage := 30, totalItems := 0, totalPages := 0,
                      items := ([] : List Nat) } ∧
    (GetAllRecords emptyListServer [] 1).2.length = 1 := by
  exact ⟨rfl, rfl⟩

/-- C1 (amended: the server-reported total-page count N is at least 1; for
N = 0 the code still issues one page-1 request, see the counterexample):
when the caller does not request an explicit page greater than 1 and every
response of the error-free server reports N total pages, GetAllRecords
issues exactly the requests for pages 1 through N, in order, and returns the
concatenation of the pages' items in page order with item order preserved
within each page; moreover every issued request carries its page number in
the page query parameter. -/
theorem getAllRecords_full_pagination {E R : Type} (f : Int → ListResp R)
    (opts : List (ListOptions → ListOptions)) (N : Int) (fuel : Nat)
    (hpage : (applyListOptions opts).page ≤ 1)
    (htp : ∀ p, (f p).totalPages = N)
    (hN : 1 ≤ N) (hfuel : N.toNat ≤ fuel) :
    GetAllRecords (fun p => (Except.ok (f p) : Except E (ListResp R))) opts fuel
      = (some (Except.ok (pagesConcat f 1 N.toNat)),
         pagesTrace (applyListOptions opts) 1 N.toNat) ∧
    ∀ p : Int, getRecordPageParams (applyListOptions opts) p "page"
        = some (toString p) := by
  constructor
  · rw [GetAllRecords_eq_loop _ opts fuel hpage]
    rw [getAllLoop_const_totalPages f _ N htp fuel 1 [] le_rfl hN (by omega)]
    have hc : (N - 1).toNat + 1 = N.toNat := by omega
    rw [hc]
    simp
  · intro p
    exact getRecordPageParams_page _ p

/-- C1 witness: the amended theorem applied to the two-page server, with
the resulting concatenation evaluated. -/
theorem getAllRecords_full_pagination_witness :
    GetAllRecords (fun p => (Except.ok (twoPages p) : Except Unit (ListResp Nat))) [] 2
      = (some (Except.ok (pagesConcat twoPages 1 2)),
         pagesTrace (applyListOptions []) 1 2) ∧
    pagesConcat twoPages 1 2 = [1, 11, 2, 12] :=
  ⟨(getAllRecords_full_pagination twoPages [] 2 2 (by decide) (fun _ => rfl)
      (by decide) (by decide)).1,
   rfl⟩

/-- C2: when the folded options request an explicit page greater than 1,
GetAllRecords issues exactly one request, for that page, and returns exactly
that page's items, regardless of how many pages the server reports. -/
theorem getAllRecords_explicit_page {E R : Type}
    (server : Int → Except E (ListResp R))
    (opts : List (ListOptions → ListOptions)) (fuel : Nat) (resp : ListResp R)
    (hpage : 1 < (applyListOptions opts).page)
    (hresp : server (applyListOptions opts).page = Except.ok resp) :
    GetAllRecords server opts fuel
      = (some (Except.ok resp.items),
         [getRecordPageParams (applyListOptions opts) (applyListOptions opts).page]) :=
  GetAllRecords_single_ok server opts fuel resp hpage hresp

/-- C2 witness: asking for page 3 of a server that reports five total pages
issues one request and returns page 3's single item. -/
theorem getAllRecords_explicit_page_witness :
    GetAllRecords fivePageServer [WithPage 3] 9
      = (some (Except.ok [3]),
         [getRecordPageParams (applyListOptions [WithPage 3])
            (applyListOptions [WithPage 3]).page]) ∧
    (GetAllRecords fivePageServer [WithPage 3] 9).2.length = 1 :=
  ⟨getAllRecords_explicit_page fivePageServer [WithPage 3] 9
      { page := 3, perPage := 30, totalItems := 5, totalPages := 5, items := [3] }
      (by decide) rfl,
   rfl⟩

/-- C9: against an error-free server whose every response reports the fixed
total-page count N, GetAllRecords without an explicit page greater than 1
terminates after issuing exactly max(N, 1) requests; in particular for
N = 0 with an empty page 1 it issues exactly the single page-1 request and
returns the empty sequence. -/
theorem getAllRecords_request_count {E R : Type} (f : Int → ListResp R)
    (opts : List (ListOptions → ListOptions)) (N : Int) (fuel : Nat)
    (hpage : (applyListOptions opts).page ≤ 1)
    (htp : ∀ p, (f p).totalPages = N)
    (hfuel : max 1 N.toNat ≤ fuel) :
    ((GetAllRecords (fun p => (Except.ok (f p) : Except E (ListResp R))) opts
        fuel).2.length = max 1 N.toNat) ∧
    (∃ r, (GetAllRecords (fun p => (Except.ok (f p) : Except E (ListResp R))) opts
        fuel).1 = some (Except.ok r)) ∧
    (N = 0 → (f 1).items = [] →
      GetAllRecords (fun p => (Except.ok (f p) : Except E (ListResp R))) opts fuel
        = (some (Except.ok ([] : List R)),
           [getRecordPageParams (applyListOptions opts) 1])) := by
  rw [GetAllRecords_eq_loop _ opts fuel hpage]
  by_cases hN : N ≤ 0
  · obtain ⟨fuel1, rfl⟩ : ∃ k, fuel = k + 1 := ⟨fuel - 1, by omega⟩
    rw [getAllLoop_last f _ fuel1 1 [] (by rw [htp]; omega)]
    refine ⟨by simp; omega, ⟨(f 1).items, by simp⟩, ?_⟩
    intro h0 hitems
    simp [hitems]
  · have hN1 : 1 ≤ N := by omega
    rw [getAllLoop_const_totalPages f _ N htp fuel 1 [] le_rfl hN1 (by omega)]
    refine ⟨?_, ⟨pagesConcat f 1 ((N - 1).toNat + 1), by simp⟩, ?_⟩
    · rw [pagesTrace_length]
      omega
    · intro h0
      omega

/-- C9 witness: the theorem applied to the empty-collection server — one
request is made and the empty sequence is returned. -/
theorem getAllRecords_request_count_witness :
    ((GetAllRecords emptyListServer [] 1).2.length = max 1 (0 : Int).toNat) ∧
    (GetAllRecords emptyListServer [] 1
      = (some (Except.ok ([] : List Nat)),
         [getRecordPageParams (applyListOptions []) 1])) :=
  ⟨(getAllRecords_request_count emptyPages [] 0 1 (by decide) (fun _ => rfl)
      (by decide)).1,
   (getAllRecords_request_count emptyPages [] 0 1 (by decide) (fun _ => rfl)
      (by decide)).2.2 rfl rfl⟩

/-- C10: every request GetAllRecords issues always carries the page query
parameter; it carries the perPage parameter exactly when the folded options
hold a strictly positive perPage value (so overriding perPage with zero or a
negative value omits the parameter on every request). -/
theorem getAllRecords_perPage_param {E R : Type}
    (server : Int → Except E (ListResp R))
    (opts : List (ListOptions → ListOptions)) (fuel : Nat) (req : Params)
    (hmem : req ∈ (GetAllRecords server opts fuel).2) :
    (req "page" ≠ none) ∧
    ((applyListOptions opts).perPage ≤ 0 → req "perPage" = none) ∧
    (0 < (applyListOptions opts).perPage →
      req "perPage" = some (toString (applyListOptions opts).perPage)) := by
  obtain ⟨p, rfl⟩ := GetAllRecords_trace_shape server opts fuel req hmem
  refine ⟨?_, ?_, ?_⟩
  · rw [getRecordPageParams_page]
    simp
  · intro h
    exact getRecordPageParams_perPage_nonpos _ _ h
  · intro h
    exact getRecordPageParams_perPage_pos _ _ h

/-- C10 witness: with perPage overridden to 0, the single request issued
against the empty-collection server has a page parameter and no perPage
parameter. -/
theorem getAllRecords_perPage_param_witness :
    (getRecordPageParams (applyListOptions [WithPerPage 0]) 1 "page" ≠ none) ∧
    ((applyListOptions [WithPerPage 0]).perPage ≤ 0 →
      getRecordPageParams (applyListOptions [WithPerPage 0]) 1 "perPage" = none) ∧
    (0 < (applyListOptions [WithPerPage 0]).perPage →
      getRecordPageParams (applyListOptions [WithPerPage 0]) 1 "perPage"
        = some (toString (applyListOptions [WithPerPage 0]).perPage)) :=
  getAllRecords_perPage_param emptyListServer [WithPerPage 0] 1
    (getRecordPageParams (applyListOptions [WithPerPage 0]) 1)
    (List.mem_singleton.mpr rfl)

/-- Go struct `apiErrorResp` (src/types.go): the decoded error body.
The open detail map (Go `map[string]any`) is abstracted to `Option D`,
`none` standing for Go's nil map. -/
structure ApiErrorResp (D : Type) where
  status : Int
  message : String
  data : Option D

/-- Go struct `APIError` (src/errors.go). -/
structure APIError (D : Type) where
  status : Int
  message : String
  data : Option D

/-- Go method `APIError.IsNotFound` (src/errors.go). -/
def APIError.IsNotFound {D : Type} (e : APIError D) : Bool :=
  e.status == 404

/-- Go method `APIError.IsUnauthorized` (src/errors.go). -/
def APIError.IsUnauthorized {D : Type} (e : APIError D) : Bool :=
  e.status == 401

/-- Go method `APIError.IsForbidden` (src/errors.go). -/
def APIError.IsForbidden {D : Type} (e : APIError D) : Bool :=
  e.status == 403

/-- Go method `APIError.IsBadRequest` (src/errors.go). -/
def APIError.IsBadRequest {D : Type} (e : APIError D) : Bool :=
  e.status == 400

/-- The error outcomes of Go doRequest and doMultipartRequest: a structured
API error, or the local error wrapping a JSON decode failure of a 2xx body. -/
inductive RequestError (D : Type) where
  | api : APIError D → RequestError D
  | localDecode : RequestError D

/-- Response handling shared verbatim by Go doRequest (src/client.go lines
442-467) and doMultipartRequest (src/client.go lines 575-600).
statusCode and statusText are the Go response's StatusCode and Status;
errBody is the result of decoding the body as apiErrorResp (none when the
body is not valid JSON for that shape); outBody is the result of decoding
the body into the caller's destination on the success path. -/
def handleResponse {D O : Type} (statusCode : Int) (statusText : String)
    (errBody : Option (ApiErrorResp D)) (outBody : Option O) :
    Except (RequestError D) O :=
  if statusCode < 200 ∨ 300 ≤ statusCode then
    match errBody with
    | none =>
      Except.error (RequestError.api
        { status := statusCode, message := statusText, data := none })
    | some e =>
      Except.error (RequestError.api
        { status := e.status, message := e.message, data := e.data })
  else
    match outBody with
    | none => Except.error RequestError.localDecode
    | some o => Except.ok o

/-- C3: every non-2xx response yields an API error (never the local decode
error); when the error body does not decode, the API error carries the HTTP
status code, the HTTP status text and empty detail data; when it does
decode, the API error carries the body's status, message and data. -/
theorem handleResponse_non2xx {D O : Type} (statusCode : Int) (statusText : String)
    (errBody : Option (ApiErrorResp D)) (outBody : Option O)
    (h : statusCode < 200 ∨ 300 ≤ statusCode) :
    (∃ e, handleResponse statusCode statusText errBody outBody
        = Except.error (RequestError.api e)) ∧
    (errBody = none → handleResponse statusCode statusText errBody outBody
        = Except.error (RequestError.api
            { status := statusCode, message := statusText, data := none })) ∧
    (∀ b, errBody = some b → handleResponse statusCode statusText errBody outBody
        = Except.error (RequestError.api
            { status := b.status, message := b.message, data := b.data })) := by
  cases errBody with
  | none =>
    refine ⟨⟨{ status := statusCode, message := statusText, data := none }, ?_⟩,
            ?_, ?_⟩
    · simp [handleResponse, h]
    · intro _
      simp [handleResponse, h]
    · intro b hb
      cases hb
  | some b =>
    refine ⟨⟨{ status := b.status, message := b.message, data := b.data }, ?_⟩,
            ?_, ?_⟩
    · simp [handleResponse, h]
    · intro hn
      cases hn
    · intro c hc
      cases hc
      simp [handleResponse, h]

/-- C3 witness: a 503 response with an undecodable body yields the API error
carrying status 503, the status text and no data; a 400 response whose body
decodes yields the body's status and message. -/
theorem handleResponse_non2xx_witness :
    (handleResponse 503 "503 Service Unavailable"
        (none : Option (ApiErrorResp Nat)) (none : Option Nat)
      = Except.error (RequestError.api
          { status := 503, message := "503 Service Unavailable", data := none })) ∧
    (handleResponse 400 "400 Bad Request"
        (some { status := 400, message := "Failed to create record.",
                data := (some 7 : Option Nat) }) (none : Option Nat)
      = Except.error (RequestError.api
          { status := 400, message := "Failed to create record.", data := some 7 })) :=
  ⟨(handleResponse_non2xx 503 "503 Service Unavailable" none none
      (Or.inr (by omega))).2.1 rfl,
   (handleResponse_non2xx 400 "400 Bad Request"
      (some { status := 400, message := "Failed to create record.", data := some 7 })
      none (Or.inr (by omega))).2.2 _ rfl⟩

/-- C8: each status helper of APIError holds exactly at its own status code
(404, 401, 403, 400) and at no other; in particular IsBadRequest is false at
the adjacent status 500. -/
theorem apiError_status_helpers {D : Type} (e : APIError D) :
    ((e.IsNotFound = true ↔ e.status = 404) ∧
     (e.IsUnauthorized = true ↔ e.status = 401) ∧
     (e.IsForbidden = true ↔ e.status = 403) ∧
     (e.IsBadRequest = true ↔ e.status = 400)) ∧
    APIError.IsBadRequest
        { status := 500, message := "", data := (none : Option Unit) } = false := by
  refine ⟨⟨?_, ?_, ?_, ?_⟩, rfl⟩ <;>
    simp [APIError.IsNotFound, APIError.IsUnauthorized, APIError.IsForbidden,
      APIError.IsBadRequest]

/-- Go struct `FileData` (src/types.go); the byte stream behind the Reader
is abstracted to a content value of type C. -/
structure FileData (C : Type) where
  content : C
  filename : String
  size : Int

/-- Go struct `FileUpload` (src/types.go): one per-field upload directive. -/
structure FileUpload (C : Type) where
  field : String
  files : List (FileData C)
  append : Bool
  delete : List String

/-- One part of a multipart body: either a plain form field written by Go
writer.WriteField, or a file part created by writer.CreateFormFile with the
file's bytes streamed into it. -/
inductive Part (C : Type) where
  | formField : String → String → Part C
  | filePart : String → String → C → Part C
deriving DecidableEq

/-- The parts that Go doMultipartRequest (src/client.go lines 515-545)
writes for one upload directive: first one form field per delete-list entry
under the key field ++ "-", then one file part per file under the bare field
name, or field ++ "+" when append is set. -/
def encodeUpload {C : Type} (u : FileUpload C) : List (Part C) :=
  (u.delete.map fun filename => Part.formField (u.field ++ "-") filename) ++
  (u.files.map fun f =>
    Part.filePart (if u.append then u.field ++ "+" else u.field) f.filename f.content)

/-- The parts written for the whole upload list, in caller-supplied order
(the Go range loop over fileUploads.Uploads). -/
def encodeUploads {C : Type} (uploads : List (FileUpload C)) : List (Part C) :=
  match uploads with
  | [] => []
  | u :: rest => encodeUpload u ++ encodeUploads rest

/-- The full multipart body written by Go doMultipartRequest: the regular
form-data fields first (the Data map, whose Go iteration order is
unspecified, given here as an already-stringified association list in some
serialization order), then the upload directives. -/
def multipartParts {C : Type} (data : List (String × String))
    (uploads : List (FileUpload C)) : List (Part C) :=
  (data.map fun kv => Part.formField kv.1 kv.2) ++ encodeUploads uploads

/-- C4: upload directives are encoded in caller-supplied order, each
directive contributing its delete form fields (key field ++ "-", value the
filename) strictly before its file parts (key field ++ "+" when append is
set, else the bare field); a delete-only avatar directive yields exactly the
two avatar- fields and no file part, and an append directive for field
files with the single file c.pdf yields exactly the files+ file part. -/
theorem encodeUploads_spec {C : Type} :
    (∀ (us vs : List (FileUpload C)) (u : FileUpload C),
      encodeUploads (us ++ u :: vs)
        = encodeUploads us ++ encodeUpload u ++ encodeUploads vs) ∧
    (∀ u : FileUpload C,
      encodeUpload u
        = (u.delete.map fun filename => Part.formField (u.field ++ "-") filename) ++
          (u.files.map fun f =>
            Part.filePart (if u.append then u.field ++ "+" else u.field)
              f.filename f.content)) ∧
    (encodeUpload { field := "avatar", files := ([] : List (FileData C)),
                    append := false, delete := ["a.png", "b.png"] }
      = [Part.formField "avatar-" "a.png", Part.formField "avatar-" "b.png"]) ∧
    (∀ c : C,
      encodeUpload { field := "files",
                     files := [{ content := c, filename := "c.pdf", size := 1 }],
                     append := true, delete := [] }
        = [Part.filePart "files+" "c.pdf" c]) := by
  refine ⟨?_, fun _ => rfl, rfl, fun _ => rfl⟩
  intro us vs u
  induction us with
  | nil => simp [encodeUploads]
  | cons v rest ih => simp [encodeUploads, ih]

/-- The mutable state of Go Client (src/client.go): base URL (trailing
slash stripped at construction), user agent and the guarded token cell; the
HTTP transport handle is external and carries no client-visible state. -/
structure ClientState where
  baseURL : String
  userAgent : String
  token : String

/-- Go method `SetToken` (src/client.go lines 54-58). -/
def SetToken (c : ClientState) (token : String) : ClientState :=
  { c with token := token }

/-- Go method `GetToken` (src/client.go lines 61-65). -/
def GetToken (c : ClientState) : String :=
  c.token

/-- C7: setting the token and then reading it yields exactly the token that
was set, whatever the prior state. -/
theorem setToken_getToken (c : ClientState) (token : String) :
    GetToken (SetToken c token) = token :=
  rfl

/-- The auth request issued by Go AuthenticateWithPassword: the endpoint
and the identity/password JSON body. -/
structure AuthRequest where
  endpoint : String
  identity : String
  password : String

/-- Go struct `authResp` (src/types.go); the record is abstract. -/
structure AuthResp (R : Type) where
  token : String
  record : R

/-- The endpoint string built by Go AuthenticateWithPassword. -/
def authEndpoint (collection : String) : String :=
  "/api/collections/" ++ collection ++ "/auth-with-password"

/-- Go `AuthenticateWithPassword` (src/client.go lines 78-96): POST the
identity/password body to the collection's password-auth endpoint; on
success store the returned token and return the record, on failure return
the error with the state unchanged. -/
def AuthenticateWithPassword {E R : Type} (c : ClientState)
    (server : AuthRequest → Except E (AuthResp R))
    (collection identity password : String) : ClientState × Except E R :=
  match server { endpoint := authEndpoint collection, identity := identity,
                 password := password } with
  | Except.error e => (c, Except.error e)
  | Except.ok resp => (SetToken c resp.token, Except.ok resp.record)

/-- Go `AuthenticateAsSuperuser` (src/client.go lines 110-112). -/
def AuthenticateAsSuperuser {E R : Type} (c : ClientState)
    (server : AuthRequest → Except E (AuthResp R))
    (email password : String) : ClientState × Except E R :=
  AuthenticateWithPassword c server "_superusers" email password

/-- C5: on a successful password authentication the stored token afterwards
equals the token field of the decoded response and the returned record is
the response's record; on failure the state (hence the stored token) is
untouched; AuthenticateAsSuperuser is the same call against the _superusers
collection. -/
theorem authenticateWithPassword_spec {E R : Type} (c : ClientState)
    (server : AuthRequest → Except E (AuthResp R))
    (collection identity password : String) :
    (∀ resp, server { endpoint := authEndpoint collection, identity := identity,
                      password := password } = Except.ok resp →
      AuthenticateWithPassword c server collection identity password
          = (SetToken c resp.token, Except.ok resp.record) ∧
      GetToken (AuthenticateWithPassword c server collection identity password).1
          = resp.token) ∧
    (∀ e, server { endpoint := authEndpoint collection, identity := identity,
                   password := password } = Except.error e →
      AuthenticateWithPassword c server collection identity password
          = (c, Except.error e)) ∧
    (AuthenticateAsSuperuser c server identity password
        = AuthenticateWithPassword c server "_superusers" identity password) := by
  refine ⟨?_, ?_, rfl⟩
  · intro resp hresp
    constructor
    · simp [AuthenticateWithPassword, hresp]
    · simp [AuthenticateWithPassword, hresp, SetToken, GetToken]
  · intro e hresp
    simp [AuthenticateWithPassword, hresp]

/-- A concrete auth server accepting exactly one identity/password pair. -/
def oneUserAuthServer : AuthRequest → Except Unit (AuthResp Nat) :=
  fun r =>
    if r.identity = "user@example.com" ∧ r.password = "pass" then
      Except.ok { token := "tok123", record := 42 }
    else
      Except.error ()

/-- C5 witness: the theorem applied to a concrete server, exercising the
success branch (token stored, record returned) and the failure branch
(state untouched). -/
theorem authenticateWithPassword_spec_witness :
    (AuthenticateWithPassword { baseURL := "http://x", userAgent := "ua", token := "old" }
        oneUserAuthServer "users" "user@example.com" "pass"
      = (SetToken { baseURL := "http://x", userAgent := "ua", token := "old" } "tok123",
         Except.ok 42)) ∧
    (AuthenticateWithPassword { baseURL := "http://x", userAgent := "ua", token := "old" }
        oneUserAuthServer "users" "user@example.com" "wrong"
      = ({ baseURL := "http://x", userAgent := "ua", token := "old" },
         Except.error ())) :=
  ⟨((authenticateWithPassword_spec
      { baseURL := "http://x", userAgent := "ua", token := "old" }
      oneUserAuthServer "users" "user@example.com" "pass").1
      { token := "tok123", record := 42 } rfl).1,
   (authenticateWithPassword_spec
      { baseURL := "http://x", userAgent := "ua", token := "old" }
      oneUserAuthServer "users" "user@example.com" "wrong").2.1 () rfl⟩

/-- Go struct `QueryOptions` (src/types.go); the zero value (empty slices)
is the starting point before the functional options are folded. -/
structure QueryOptions where
  expand : List String
  fields : List String

/-- Go functional option `WithExpand` (src/types.go). -/
def WithExpand (fields : List String) : QueryOptions → QueryOptions :=
  fun o => { o with expand := fields }

/-- Go functional option `WithFields` (src/types.go). -/
def WithFields (fields : List String) : QueryOptions → QueryOptions :=
  fun o => { o with fields := fields }

/-- Folding the caller-supplied query options over the zero value, as the
loop at the top of Go Impersonate does. -/
def applyQueryOptions (opts : List (QueryOptions → QueryOptions)) : QueryOptions :=
  opts.foldl (fun o f => f o) { expand := [], fields := [] }

/-- The expand/fields query parameters built by Go Impersonate
(src/client.go lines 144-153). -/
def impersonateQueryParams (options : QueryOptions) : Params :=
  let p := Params.empty
  let p := if options.expand.length > 0 then p.set "expand" (String.intercalate "," options.expand) else p
  let p := if options.fields.length > 0 then p.set "fields" (String.intercalate "," options.fields) else p
  p

/-- The JSON body sent by Go Impersonate (src/client.go lines 155-164): a
duration entry is put in the map only when duration > 0, and the body is
sent at all (non-nil) only when the map is non-empty. -/
def impersonateBody (duration : Int) : Option (List (String × Int)) :=
  let body := if duration > 0 then [("duration", duration)] else []
  if body.length > 0 then some body else none

/-- The impersonate request: endpoint path, query parameters and optional
JSON body. -/
structure ImpersonateRequest where
  endpoint : String
  params : Params
  body : Option (List (String × Int))

/-- Go struct `impersonateResp` (src/types.go). -/
structure ImpersonateResp (R : Type) where
  token : String
  record : R

/-- Go struct `ImpersonateResult` (src/types.go). -/
structure ImpersonateResult (R : Type) where
  token : String
  record : R

/-- Go `Impersonate` (src/client.go lines 135-176). Besides the result, the
issued request is returned so its body can be inspected. The client state is
not part of the result: Impersonate never stores the returned token. -/
def Impersonate {E R : Type} (server : ImpersonateRequest → Except E (ImpersonateResp R))
    (collection recordID : String) (duration : Int)
    (opts : List (QueryOptions → QueryOptions)) :
    Except E (ImpersonateResult R) × ImpersonateRequest :=
  let options := applyQueryOptions opts
  let req : ImpersonateRequest :=
    { endpoint := "/api/collections/" ++ collection ++ "/impersonate/" ++ recordID,
      params := impersonateQueryParams options,
      body := impersonateBody duration }
  match server req with
  | Except.error e => (Except.error e, req)
  | Except.ok resp => (Except.ok { token := resp.token, record := resp.record }, req)

/-- C6: the body of the request Impersonate issues holds exactly the single
duration entry when the duration argument is strictly positive, and is
omitted entirely (no body, hence no duration key) when the duration is zero
or negative. -/
theorem impersonate_duration_body {E R : Type}
    (server : ImpersonateRequest → Except E (ImpersonateResp R))
    (collection recordID : String) (duration : Int)
    (opts : List (QueryOptions → QueryOptions)) :
    (0 < duration →
      (Impersonate server collection recordID duration opts).2.body
        = some [("duration", duration)]) ∧
    (duration ≤ 0 →
      (Impersonate server collection recordID duration opts).2.body = none) := by
  have hbody : (Impersonate server collection recordID duration opts).2.body
      = impersonateBody duration := by
    cases hsp : server { endpoint := "/api/collections/" ++ collection
                            ++ "/impersonate/" ++ recordID,
                         params := impersonateQueryParams (applyQueryOptions opts),
                         body := impersonateBody duration } with
    | error e => simp [Impersonate, hsp]
    | ok resp => simp [Impersonate, hsp]
  constructor
  · intro h
    rw [hbody]
    simp [impersonateBody, h]
  · intro h
    have h1 : ¬ duration > 0 := by omega
    rw [hbody]
    simp [impersonateBody, h1]

/-- A concrete impersonate server for the witness. -/
def fixedImpersonateServer : ImpersonateRequest → Except Unit (ImpersonateResp Nat) :=
  fun _ => Except.ok { token := "imp-token", record := 9 }

/-- C6 witness: duration 3600 sends the single-entry duration body, and
duration 0 sends no body at all. -/
theorem impersonate_duration_body_witness :
    (Impersonate fixedImpersonateServer "users" "rec1" 3600 []).2.body
        = some [("duration", 3600)] ∧
    (Impersonate fixedImpersonateServer "users" "rec1" 0 []).2.body = none :=
  ⟨(impersonate_duration_body fixedImpersonateServer "users" "rec1" 3600 []).1
      (by decide),
   (impersonate_duration_body fixedImpersonateServer "users" "rec1" 0 []).2
      (by decide)⟩

end PocketBase
